import Mathlib

/-!
# Edge60 match orchestration: a shallow embedding

This file embeds the claim-relevant parts of the Edge60 backend in Lean 4 and
settles the frozen claims about it.

Sources embedded (paths relative to the repository snapshot):
* the match service (`src/unnamed/part_015`, class `MatchService`): lifecycle
  state machine, `handleGameAction`, `settleMatch`, `cancelMatch`;
* the game engines: `AssetPredictionEngine` (`src/unnamed/part_007`),
  `TradeDuelEngine` (`src/unnamed/part_003`),
  `MemoryGameEngine` (`src/backend/src/games/MemoryGameEngine.ts`);
* the price service (`PriceServiceClass` in `src/src/hooks/useYellowSession.ts`);
* the websocket disconnect handler (`src/backend/src/handlers/websocket.ts`).

Numbers that are IEEE doubles in the source are modelled as rationals (`ℚ`);
wall-clock timestamps are modelled as `ℕ` parameters and the purely
informational `openedAt` / `lastFlipTime` / `joinedAt` timestamps inside
engine payloads are omitted.  Asynchronous external results (HTTP price
responses, treasury transaction results) enter the model as explicit
parameters.  The match record store (`stores/index.js`, whose implementation
file is absent from the snapshot) is, following the spec's description of the
Match Record Store as keyed storage with in-place partial updates, modelled
by an `Option` record per match id, a partial update succeeding exactly when
the record is present.
-/

namespace Edge60

/-! ## Price oracle (`PriceServiceClass`, `src/src/hooks/useYellowSession.ts` lines 167-295) -/

/-- A price reading as produced by the price service (`PriceData`). -/
structure PriceData where
  price : ℚ
  timestamp : ℕ
  source : String
deriving DecidableEq, Repr

/-- The per-asset cache of the price service (`cache: Map<string, PriceData>`). -/
def PriceCache : Type := String → Option PriceData

/-- The fixed cache window (`cacheMs = 5000`). -/
def CACHE_MS : ℕ := 5000

/-- The asset-symbol to CoinGecko-id table (`ASSET_ID_MAP`). -/
def ASSET_ID_MAP (asset : String) : Option String :=
  if asset = "ETH/USD" then some "ethereum"
  else if asset = "BTC/USD" then some "bitcoin"
  else if asset = "SOL/USD" then some "solana"
  else none

/-- Base of the synthetic fallback price in `fetchFromApi`
(`asset === "BTC/USD" ? 65000 : asset === "SOL/USD" ? 140 : 2500`). -/
def mockBasePrice (asset : String) : ℚ :=
  if asset = "BTC/USD" then 65000 else if asset = "SOL/USD" then 140 else 2500

/-- Result of a price-service call: the reading returned to the caller, the
cache afterwards, and whether an external fetch was performed. -/
structure PriceResult where
  data : PriceData
  cache : PriceCache
  fetched : Bool

/-- Store a reading in the cache (`this.cache.set(asset, priceData)`). -/
def cacheSet (c : PriceCache) (asset : String) (d : PriceData) : PriceCache :=
  fun a => if a = asset then some d else c a

/-- Drop an asset's entry from the cache (`this.cache.delete(asset)`). -/
def cacheDelete (c : PriceCache) (asset : String) : PriceCache :=
  fun a => if a = asset then none else c a

/-- The `catch` branch of `fetchFromApi`: return the stale cached value if one
exists, otherwise a synthetic reading tagged `"mock"`; the cache is not
touched.  `noise` stands for the `(Math.random() - 0.5) * 50` term. -/
def fetchFailure (c : PriceCache) (now : ℕ) (noise : ℚ) (asset : String) : PriceResult :=
  match c asset with
  | some cached => ⟨cached, c, true⟩
  | none => ⟨⟨mockBasePrice asset + noise, now, "mock"⟩, c, true⟩

/-- `fetchFromApi`: `apiResp` is the parsed `data[assetId]?.usd` of the HTTP
response (`none` for a network/HTTP/shape error).  A price of `0` is falsy in
`if (!price) throw ...` and therefore also takes the failure path.  On success
the reading is stored in the cache. -/
def fetchFromApi (c : PriceCache) (now : ℕ) (apiResp : Option ℚ) (noise : ℚ)
    (asset : String) : PriceResult :=
  match apiResp with
  | some p =>
      if p = 0 then fetchFailure c now noise asset
      else
        let d : PriceData := ⟨p, now, "coingecko"⟩
        ⟨d, cacheSet c asset d, true⟩
  | none => fetchFailure c now noise asset

/-- The body of `getPrice` once the asset id is resolved: return the cached
reading if it is younger than the cache window, otherwise fetch. -/
def getPriceResolved (c : PriceCache) (now : ℕ) (apiResp : Option ℚ) (noise : ℚ)
    (asset : String) : PriceResult :=
  match c asset with
  | some cached =>
      if now - cached.timestamp < CACHE_MS then ⟨cached, c, false⟩
      else fetchFromApi c now apiResp noise asset
  | none => fetchFromApi c now apiResp noise asset

/-- `getPrice(asset)`: an asset missing from `ASSET_ID_MAP` falls back to
`getEthUsdPrice()`, i.e. `getPrice("ETH/USD")`. -/
def getPrice (c : PriceCache) (now : ℕ) (apiResp : Option ℚ) (noise : ℚ)
    (asset : String) : PriceResult :=
  match ASSET_ID_MAP asset with
  | none => getPriceResolved c now apiResp noise "ETH/USD"
  | some _ => getPriceResolved c now apiResp noise asset

/-- `getFreshPrice(asset)`: clear the asset's cache entry, then `getPrice`. -/
def getFreshPrice (c : PriceCache) (now : ℕ) (apiResp : Option ℚ) (noise : ℚ)
    (asset : String) : PriceResult :=
  getPrice (cacheDelete c asset) now apiResp noise asset

/-- `getLastPrice(asset)`: the cached value, with no network access. -/
def getLastPrice (c : PriceCache) (asset : String) : Option PriceData :=
  c asset

/-- Every execution of `fetchFromApi` counts as an external fetch. -/
theorem fetchFromApi_fetched (c : PriceCache) (now : ℕ) (r : Option ℚ) (noise : ℚ)
    (asset : String) : (fetchFromApi c now r noise asset).fetched = true := by
  rcases r with _ | p
  · unfold fetchFromApi fetchFailure
    rcases c asset <;> rfl
  · unfold fetchFromApi fetchFailure
    by_cases hp : p = 0
    · simp only [hp, if_pos rfl]
      rcases c asset <;> rfl
    · simp only [if_neg hp]

/-- A fetch whose HTTP response is missing or carries a falsy price takes the
failure branch of `fetchFromApi`. -/
theorem fetchFromApi_of_failure (c : PriceCache) (now : ℕ) (r : Option ℚ) (noise : ℚ)
    (asset : String) (hfail : r = none ∨ r = some 0) :
    fetchFromApi c now r noise asset = fetchFailure c now noise asset := by
  rcases hfail with h | h <;> subst h <;> simp [fetchFromApi]

/-- C9: for a supported asset whose cache entry is younger than the 5-second
window, every `getPrice` call returns exactly the cached reading, leaves the
cache unchanged and performs no external fetch — so two such calls inside the
window return an identical reading and the second call does not fetch; and
`getFreshPrice` always performs an external fetch, whatever the cache holds. -/
theorem getPrice_cacheHit_getFreshPrice_fetches
    (c : PriceCache) (now₁ now₂ : ℕ) (r₁ r₂ : Option ℚ) (n₁ n₂ : ℚ)
    (asset aid : String) (d : PriceData)
    (hknown : ASSET_ID_MAP asset = some aid)
    (hcached : c asset = some d)
    (h₁ : now₁ - d.timestamp < CACHE_MS) (h₂ : now₂ - d.timestamp < CACHE_MS) :
    getPrice c now₁ r₁ n₁ asset = ⟨d, c, false⟩ ∧
    getPrice c now₂ r₂ n₂ asset = ⟨d, c, false⟩ ∧
    ∀ (c' : PriceCache) (now : ℕ) (r : Option ℚ) (n : ℚ),
      (getFreshPrice c' now r n asset).fetched = true := by
  refine ⟨?_, ?_, ?_⟩
  · unfold getPrice
    rw [hknown]
    unfold getPriceResolved
    rw [hcached]
    simp [h₁]
  · unfold getPrice
    rw [hknown]
    unfold getPriceResolved
    rw [hcached]
    simp [h₂]
  · intro c' now r n
    have hdel : cacheDelete c' asset asset = none := by simp [cacheDelete]
    unfold getFreshPrice getPrice
    rw [hknown]
    unfold getPriceResolved
    rw [hdel]
    exact fetchFromApi_fetched _ _ _ _ _

/-- Concrete cache used by witnesses: one ETH/USD reading taken at time 1000. -/
def demoCache : PriceCache :=
  fun a => if a = "ETH/USD" then some ⟨2500, 1000, "coingecko"⟩ else none

/-- Witness for C9 at a concrete cache, two call times inside the window, and
a concrete `getFreshPrice` call. -/
theorem getPrice_cacheHit_getFreshPrice_fetches_witness :
    getPrice demoCache 2000 none 0 "ETH/USD" = ⟨⟨2500, 1000, "coingecko"⟩, demoCache, false⟩ ∧
    getPrice demoCache 3000 (some 2600) 1 "ETH/USD" = ⟨⟨2500, 1000, "coingecko"⟩, demoCache, false⟩ ∧
    (getFreshPrice demoCache 9000 (some 42) 0 "ETH/USD").fetched = true := by
  have h := getPrice_cacheHit_getFreshPrice_fetches demoCache 2000 3000 none (some 2600) 0 1
    "ETH/USD" "ethereum" ⟨2500, 1000, "coingecko"⟩ (by decide)
    (by unfold demoCache; decide) (by decide) (by decide)
  exact ⟨h.1, h.2.1, h.2.2 demoCache 9000 (some 42) 0⟩

/-- C10: for a supported asset, a `getPrice` call whose external fetch fails
(`apiResp` missing or falsy) leaves the cache exactly as it was: the caller
receives the stale cached reading if one exists, otherwise a synthetic
reading tagged `"mock"`, and `getLastPrice` afterwards returns exactly what
it returned before — in particular `none` when the cache held nothing. -/
theorem getPrice_failedFetch_frame
    (c : PriceCache) (now : ℕ) (r : Option ℚ) (noise : ℚ) (asset aid : String)
    (hknown : ASSET_ID_MAP asset = some aid)
    (hfail : r = none ∨ r = some 0) :
    (getPrice c now r noise asset).cache = c ∧
    getLastPrice (getPrice c now r noise asset).cache asset = getLastPrice c asset ∧
    (∀ d, c asset = some d → (getPrice c now r noise asset).data = d) ∧
    (c asset = none → (getPrice c now r noise asset).data.source = "mock" ∧
      getLastPrice (getPrice c now r noise asset).cache asset = none) := by
  have hout : getPrice c now r noise asset = getPriceResolved c now r noise asset := by
    unfold getPrice
    rw [hknown]
  rcases hc : c asset with _ | d
  · have : getPrice c now r noise asset =
        ⟨⟨mockBasePrice asset + noise, now, "mock"⟩, c, true⟩ := by
      rw [hout]
      unfold getPriceResolved
      rw [hc, fetchFromApi_of_failure c now r noise asset hfail]
      unfold fetchFailure
      rw [hc]
    rw [this]
    exact ⟨rfl, rfl, fun d hd => Option.noConfusion hd, fun _ => ⟨rfl, hc⟩⟩
  · have : getPrice c now r noise asset = ⟨d, c, (!decide (now - d.timestamp < CACHE_MS))⟩ := by
      rw [hout]
      unfold getPriceResolved
      rw [hc]
      by_cases hfresh : now - d.timestamp < CACHE_MS
      · simp [hfresh]
      · simp only [if_neg hfresh]
        rw [fetchFromApi_of_failure c now r noise asset hfail]
        unfold fetchFailure
        rw [hc]
        simp [hfresh]
    rw [this]
    refine ⟨rfl, rfl, ?_, ?_⟩
    · intro d' hd'
      injection hd'
    · intro hnone
      exact Option.noConfusion hnone

/-! ## Game types and the engine registry (`src/backend/src/types/index.ts` line 67,
`src/unnamed/part_015` lines 41-51) -/

/-- `GameType = "PREDICTION" | "TRADE_DUEL" | "MEMORY_GAME"`. -/
inductive GameType
| PREDICTION
| TRADE_DUEL
| MEMORY_GAME
deriving DecidableEq, Repr

/-- The three engine classes present in the repository. -/
inductive EngineKind
| assetPrediction
| tradeDuel
| memoryGame
deriving DecidableEq, Repr

/-- The `engines` record of `MatchService` (`src/unnamed/part_015` lines 41-44).
Only `PREDICTION` and `TRADE_DUEL` entries exist; the record declared as
`Record<GameType, IGameEngine>` has no `MEMORY_GAME` key, so the lookup
`this.engines[gameType]` yields `undefined` for `MEMORY_GAME`. -/
def engineRegistry : GameType → Option EngineKind
  | .PREDICTION => some .assetPrediction
  | .TRADE_DUEL => some .tradeDuel
  | .MEMORY_GAME => none

/-- `getEngine`: `this.engines[gameType] || this.engines["PREDICTION"]`. -/
def getEngine (g : GameType) : EngineKind :=
  (engineRegistry g).getD .assetPrediction

/-- C8: the orchestrator dispatches `PREDICTION` and `TRADE_DUEL` matches to
their own engines, but a `MEMORY_GAME` match is dispatched to the prediction
engine — the `engines` record has no `MEMORY_GAME` entry, so `getEngine`
falls back to `engines["PREDICTION"]` and the `MemoryGameEngine` class is
never reached through the match service. -/
theorem getEngine_memoryGame_fallback :
    getEngine .PREDICTION = .assetPrediction ∧
    getEngine .TRADE_DUEL = .tradeDuel ∧
    getEngine .MEMORY_GAME = .assetPrediction ∧
    getEngine .MEMORY_GAME ≠ .memoryGame := by
  decide

/-! ## Asset prediction engine (`AssetPredictionEngine`, `src/unnamed/part_007`
lines 1-126) -/

/-- A prediction value (`Prediction = "UP" | "DOWN"`). -/
inductive Prediction
| UP
| DOWN
deriving DecidableEq, Repr

/-- `PredictionMatchData`: the prediction engine's `matchData` payload. -/
structure PredictionMatchData where
  startPrice : ℚ
  endPrice : Option ℚ
  predictionA : Option Prediction
  predictionB : Option Prediction
deriving DecidableEq, Repr

/-- `AssetPredictionEngine.onComplete` (lines 75-125): `endPrice` is the
reading delivered by `PriceService.getFreshPrice`.  Returns the winner and
the final `matchData`. -/
def predictionOnComplete (playerA : String) (playerB : Option String)
    (data : PredictionMatchData) (endPrice : ℚ) :
    Option String × PredictionMatchData :=
  let startPrice := data.startPrice
  let data := { data with endPrice := some endPrice }
  let priceDiff := endPrice - startPrice
  let priceUnchanged := priceDiff = 0
  let correctPrediction : Option Prediction :=
    if priceUnchanged then none
    else if priceDiff > 0 then some .UP else some .DOWN
  let predA := data.predictionA
  let predB := data.predictionB
  let winner : Option String :=
    if priceUnchanged then none
    else if predA = none ∧ predB = none then none
    else if predA = none ∧ predB ≠ none then playerB
    else if predA ≠ none ∧ predB = none then some playerA
    else if predA = correctPrediction ∧ predB ≠ correctPrediction then some playerA
    else if predB = correctPrediction ∧ predA ≠ correctPrediction then playerB
    else none
  (winner, data)

/-- The resolution table exactly as the spec words it (§4.3, prediction
engine): price unchanged, draw; neither predicted, draw; exactly one
predicted, that player wins by default; both predicted and exactly one
matches the actual direction, that player wins; both match or neither
matches, draw. -/
def specPredictionTable (playerA : String) (playerB : Option String)
    (startPrice endPrice : ℚ) (predA predB : Option Prediction) : Option String :=
  if endPrice = startPrice then none
  else
    let direction : Prediction := if startPrice < endPrice then .UP else .DOWN
    match predA, predB with
    | none, none => none
    | none, some _ => playerB
    | some _, none => some playerA
    | some a, some b =>
        if a = direction ∧ b ≠ direction then some playerA
        else if b = direction ∧ a ≠ direction then playerB
        else none

/-- C3: the prediction engine's `onComplete` resolves the winner by exactly
the spec's table over the fresh end price and the two stored predictions. -/
theorem predictionOnComplete_matches_table (playerA : String) (playerB : Option String)
    (data : PredictionMatchData) (endPrice : ℚ) :
    (predictionOnComplete playerA playerB data endPrice).1 =
      specPredictionTable playerA playerB data.startPrice endPrice
        data.predictionA data.predictionB := by
  unfold predictionOnComplete specPredictionTable
  rcases lt_trichotomy endPrice data.startPrice with hlt | heq | hgt
  · have hne : ¬(endPrice - data.startPrice = 0) := sub_ne_zero.mpr (ne_of_lt hlt)
    have hneq : ¬(endPrice = data.startPrice) := ne_of_lt hlt
    have hnpos : ¬(endPrice - data.startPrice > 0) := by
      simp only [gt_iff_lt, sub_pos, not_lt]
      exact le_of_lt hlt
    have hnlt : ¬(data.startPrice < endPrice) := not_lt.mpr (le_of_lt hlt)
    rcases data.predictionA with _ | a <;> rcases data.predictionB with _ | b <;>
      simp [hne, hneq, hnpos, hnlt]
  · simp [heq, sub_eq_zero.mpr heq]
  · have hne : ¬(endPrice - data.startPrice = 0) := sub_ne_zero.mpr (ne_of_gt hgt)
    have hneq : ¬(endPrice = data.startPrice) := ne_of_gt hgt
    have hpos : endPrice - data.startPrice > 0 := sub_pos.mpr hgt
    rcases data.predictionA with _ | a <;> rcases data.predictionB with _ | b <;>
      simp [hne, hneq, hpos, hgt]

/-! ## Trade duel engine (`TradeDuelEngine`, `src/unnamed/part_003` lines 240-515) -/

/-- Side of an open position (`side: "LONG" | "SHORT"`). -/
inductive PositionSide
| LONG
| SHORT
deriving DecidableEq, Repr

/-- An open position (`Position`); the informational `openedAt` wall-clock
timestamp is omitted. -/
structure Position where
  entryPrice : ℚ
  size : ℚ
  side : PositionSide
deriving DecidableEq, Repr

/-- An entry of `tradeHistory` (`state.tradeHistory.push(...)`); wall-clock
`time` fields are omitted. -/
inductive TradeEvent
| openLong (price size : ℚ)
| openShort (price size : ℚ)
| closeLong (price pnl : ℚ)
| closeShort (price pnl : ℚ)
deriving DecidableEq, Repr

/-- Per-player trading state (`PlayerState`). -/
structure TradePlayerState where
  virtualBalance : ℚ
  position : Option Position
  tradeHistory : List TradeEvent
deriving DecidableEq, Repr

/-- `INITIAL_BALANCE = 10000` virtual cash. -/
def INITIAL_BALANCE : ℚ := 10000

/-- Aggregate results stored by `onComplete` (`TradeDuelResults`). -/
structure TradeDuelResults where
  initialBalance : ℚ
  playerAFinalBalance : ℚ
  playerBFinalBalance : ℚ
  playerAProfit : ℚ
  playerBProfit : ℚ
  playerAProfitPercent : ℚ
  playerBProfitPercent : ℚ
deriving DecidableEq, Repr

/-- The trade duel engine's `matchData` payload (`TradeDuelData`). -/
structure TradeDuelData where
  startPrice : ℚ
  endPrice : Option ℚ
  initialBalance : ℚ
  playerAState : TradePlayerState
  playerBState : TradePlayerState
  results : Option TradeDuelResults
deriving DecidableEq, Repr

/-- `closePosition`: realize the PnL of the open position, if any, into
`virtualBalance` at the given price.  (In the source a division never occurs
here; the LONG branch sets the balance to `size * price` and the SHORT branch
to `size * entryPrice + (entryPrice - price) * size`.) -/
def closePosition (state : TradePlayerState) (price : ℚ) : TradePlayerState :=
  match state.position with
  | none => state
  | some pos =>
    match pos.side with
    | .LONG =>
        let currentValue := pos.size * price
        let pnl := currentValue - pos.size * pos.entryPrice
        { state with
          virtualBalance := currentValue
          tradeHistory := state.tradeHistory ++ [.closeLong price pnl]
          position := none }
    | .SHORT =>
        let pnl := (pos.entryPrice - price) * pos.size
        let originalCollateral := pos.size * pos.entryPrice
        { state with
          virtualBalance := originalCollateral + pnl
          tradeHistory := state.tradeHistory ++ [.closeShort price pnl]
          position := none }

/-- `executeBuy`: close any open position, then open a LONG sized
`balance / price` with the entire balance as margin.  (`ℚ` division by zero
yields 0 where JS would produce Infinity; no claim touches a zero price.) -/
def executeBuy (state : TradePlayerState) (price : ℚ) : TradePlayerState :=
  let state :=
    match state.position with
    | some _ => closePosition state price
    | none => state
  let size := state.virtualBalance / price
  { state with
    position := some ⟨price, size, .LONG⟩
    virtualBalance := 0
    tradeHistory := state.tradeHistory ++ [.openLong price size] }

/-- `executeSell`: close any open position, then open a SHORT of notional
equal to the entire balance. -/
def executeSell (state : TradePlayerState) (price : ℚ) : TradePlayerState :=
  let state :=
    match state.position with
    | some _ => closePosition state price
    | none => state
  let notional := state.virtualBalance
  let size := notional / price
  { state with
    position := some ⟨price, size, .SHORT⟩
    virtualBalance := 0
    tradeHistory := state.tradeHistory ++ [.openShort price size] }

/-- `TradeDuelEngine.onComplete` (lines 456-513): force-close both players'
positions at the freshly fetched end price, compute each profit as final
balance minus `INITIAL_BALANCE`, and pick the winner. -/
def tradeDuelOnComplete (playerA : String) (playerB : Option String)
    (data : TradeDuelData) (endPrice : ℚ) :
    Option String × TradeDuelData :=
  let data := { data with endPrice := some endPrice }
  let aState := closePosition data.playerAState endPrice
  let bState := closePosition data.playerBState endPrice
  let balanceA := aState.virtualBalance
  let balanceB := bState.virtualBalance
  let initialBalance := INITIAL_BALANCE
  let profitA := balanceA - initialBalance
  let profitB := balanceB - initialBalance
  let winner : Option String :=
    if profitA ≤ 0 ∧ profitB ≤ 0 then none
    else if profitA > profitB then some playerA
    else if profitB > profitA ∧ playerB ≠ none then playerB
    else none
  let results : TradeDuelResults :=
    ⟨initialBalance, balanceA, balanceB, profitA, profitB,
      profitA / initialBalance * 100, profitB / initialBalance * 100⟩
  (winner, { data with
    playerAState := aState
    playerBState := bState
    results := some results })

/-- The winner rule exactly as the spec words it (§4.3, trade-duel engine):
both profits non-positive, draw, regardless of which is less negative; equal
profits, draw; otherwise the strictly higher profit wins. -/
def specTradeDuelWinner (playerA playerB : String) (profitA profitB : ℚ) :
    Option String :=
  if profitA ≤ 0 ∧ profitB ≤ 0 then none
  else if profitA = profitB then none
  else if profitA > profitB then some playerA
  else some playerB

/-- C4: for a two-player trade duel, `onComplete` declares exactly the winner
the spec's rule picks from the two computed profits (final balance after the
forced close, minus the initial balance). -/
theorem tradeDuelOnComplete_matches_rule (playerA b : String)
    (data : TradeDuelData) (endPrice : ℚ) :
    (tradeDuelOnComplete playerA (some b) data endPrice).1 =
      specTradeDuelWinner playerA b
        ((closePosition data.playerAState endPrice).virtualBalance - INITIAL_BALANCE)
        ((closePosition data.playerBState endPrice).virtualBalance - INITIAL_BALANCE) := by
  unfold tradeDuelOnComplete specTradeDuelWinner
  set pA := (closePosition data.playerAState endPrice).virtualBalance - INITIAL_BALANCE with hpA
  set pB := (closePosition data.playerBState endPrice).virtualBalance - INITIAL_BALANCE with hpB
  by_cases hboth : pA ≤ 0 ∧ pB ≤ 0
  · simp [hboth]
  · by_cases heq : pA = pB
    · have hnotgt : ¬(pA > pB) := by rw [heq]; exact lt_irrefl pB
      have hnotlt : ¬(pB > pA) := by rw [heq]; exact lt_irrefl pB
      simp [hboth, heq, hnotgt, hnotlt]
    · have himp : pA ≤ 0 → 0 < pB := fun ha => not_le.mp (fun hb => hboth ⟨ha, hb⟩)
      have himp' : (closePosition data.playerAState endPrice).virtualBalance ≤ INITIAL_BALANCE →
          INITIAL_BALANCE < (closePosition data.playerBState endPrice).virtualBalance :=
        fun ha => sub_pos.mp (himp (sub_nonpos.mpr ha))
      rcases lt_or_gt_of_ne heq with hlt | hgt
      · have hnotgt : ¬(pA > pB) := not_lt.mpr (le_of_lt hlt)
        simp only [hpA, hpB] at hlt hnotgt heq
        simp [hpA, hpB, heq, hnotgt, hlt, himp', sub_nonpos]
      · simp only [hpA, hpB] at hgt heq
        simp [hpA, hpB, heq, hgt, himp', sub_nonpos]

/-! ## Memory match engine (`MemoryGameEngine`,
`src/backend/src/games/MemoryGameEngine.ts`) -/

/-- The `EMOJI_POOL` constant (lines 13-18), verbatim.  Its own comment reads
"15 visually distinct emojis for pairs", but the list contains 🍎, 🎸, 💎 and
🍇 twice each. -/
def EMOJI_POOL : List String :=
  ["🍎", "🎸", "💎", "🍇", "🔥",
   "🍓", "🍕", "🍩", "🎮", "🎯",
   "🍎", "🎸", "💎", "🍇", "🍉"]

/-- The grid built by `onStart` before shuffling:
`const pairs = [...EMOJI_POOL]; const grid = [...pairs, ...pairs]`.
`shuffleArray` then permutes it in place (Fisher-Yates). -/
def memoryUnshuffledGrid : List String := EMOJI_POOL ++ EMOJI_POOL

/-- The board shape the spec promises (§4.3 and scenario 4): a 30-card layout
with exactly 15 distinct symbols, each appearing exactly twice. -/
def specMemoryBoard (layout : List String) : Prop :=
  layout.length = 30 ∧ layout.dedup.length = 15 ∧ ∀ s ∈ layout, layout.count s = 2

/-- C5: no board `onStart` can produce satisfies the spec's shape.  Whatever
permutation `shuffleArray` applies to `EMOJI_POOL ++ EMOJI_POOL`, the layout
contains the symbol 🍎 four times (and only 11 distinct symbols), not 15
distinct symbols twice each. -/
theorem memoryBoard_pool_duplicated :
    memoryUnshuffledGrid.dedup.length = 11 ∧
    memoryUnshuffledGrid.count "🍎" = 4 ∧
    ∀ grid : List String, grid.Perm memoryUnshuffledGrid → ¬ specMemoryBoard grid := by
  refine ⟨by decide, by decide, ?_⟩
  intro grid hperm hspec
  have hmem : "🍎" ∈ grid := hperm.mem_iff.mpr (by decide)
  have hcount : grid.count "🍎" = memoryUnshuffledGrid.count "🍎" := hperm.count_eq "🍎"
  have h4 : memoryUnshuffledGrid.count "🍎" = 4 := by decide
  have h2 := hspec.2.2 "🍎" hmem
  rw [hcount, h4] at h2
  exact absurd h2 (by decide)

/-- Witness for C5 at the identity permutation of the unshuffled grid. -/
theorem memoryBoard_pool_duplicated_witness :
    memoryUnshuffledGrid.Perm memoryUnshuffledGrid ∧ ¬ specMemoryBoard memoryUnshuffledGrid :=
  ⟨List.Perm.refl _,
    memoryBoard_pool_duplicated.2.2 memoryUnshuffledGrid (List.Perm.refl _)⟩

/-! ## Engine action handlers and the match record -/

/-- Per-player memory state (`MemoryPlayerState`); the informational
`lastFlipTime` wall-clock timestamp is omitted. -/
structure MemoryPlayerState where
  score : ℕ
  matchedPairs : List ℕ
  flippedCards : List ℕ
  totalFlips : ℕ
deriving DecidableEq, Repr

/-- Aggregate results stored by the memory engine's `onComplete`. -/
structure MemoryGameResults where
  playerAScore : ℕ
  playerBScore : ℕ
  playerATotalFlips : ℕ
  playerBTotalFlips : ℕ
deriving DecidableEq, Repr

/-- The memory engine's `matchData` payload (`MemoryGameData`). -/
structure MemoryGameData where
  grid : List String
  playerAState : MemoryPlayerState
  playerBState : MemoryPlayerState
  results : Option MemoryGameResults
deriving DecidableEq, Repr

/-- Which of the two participants an action resolves to. -/
inductive MatchSide
| A
| B
deriving DecidableEq, Repr

/-- The `payload` argument of a game action, with the fields the engines
read: `payload.action`, `payload.prediction`, `payload.cardIndex` (an
integer, so that the `cardIndex < 0` check is meaningful). -/
structure GamePayload where
  action : Option String
  prediction : Option Prediction
  cardIndex : Option ℤ
deriving DecidableEq, Repr

/-- `AssetPredictionEngine.onAction` (`src/unnamed/part_007` lines 43-63):
store the submitted prediction for the acting player; unknown action types
and unknown players fail without touching the data. -/
def predictionOnAction (playerA : String) (playerB : Option String)
    (d : PredictionMatchData) (playerId actionType : String) (payload : GamePayload) :
    Bool × PredictionMatchData :=
  if actionType ≠ "SUBMIT_PREDICTION" then (false, d)
  else if playerA = playerId then (true, { d with predictionA := payload.prediction })
  else if playerB = some playerId then (true, { d with predictionB := payload.prediction })
  else (false, d)

/-- Read the acting player's trade state. -/
def duelStateOf (d : TradeDuelData) : MatchSide → TradePlayerState
  | .A => d.playerAState
  | .B => d.playerBState

/-- Write the acting player's trade state back (the source mutates the state
object in place). -/
def duelStateSet (d : TradeDuelData) : MatchSide → TradePlayerState → TradeDuelData
  | .A, s => { d with playerAState := s }
  | .B, s => { d with playerBState := s }

/-- `TradeDuelEngine.onAction` (`src/unnamed/part_003` lines 315-348): BUY
opens a LONG (closing any open position first), SELL a SHORT; the trade price
is `getLastPrice(asset)?.price || data.startPrice` (`lastPrice` parameter;
a falsy cached price of 0 also falls back to the start price). -/
def tradeDuelOnAction (playerA : String) (playerB : Option String)
    (lastPrice : Option PriceData) (d : TradeDuelData)
    (playerId actionType : String) (payload : GamePayload) :
    Bool × TradeDuelData :=
  if actionType ≠ "GAME_ACTION" then (false, d)
  else
    match (if playerA = playerId then some MatchSide.A
           else if playerB = some playerId then some MatchSide.B
           else none) with
    | none => (false, d)
    | some who =>
      let state := duelStateOf d who
      let currentPrice :=
        match lastPrice with
        | some pd => if pd.price = 0 then d.startPrice else pd.price
        | none => d.startPrice
      if payload.action = some "BUY" then
        (true, duelStateSet d who (executeBuy state currentPrice))
      else if payload.action = some "SELL" then
        (true, duelStateSet d who (executeSell state currentPrice))
      else (false, d)

/-- Read the acting player's memory state. -/
def memoryStateOf (d : MemoryGameData) : MatchSide → MemoryPlayerState
  | .A => d.playerAState
  | .B => d.playerBState

/-- Write the acting player's memory state back. -/
def memoryStateSet (d : MemoryGameData) : MatchSide → MemoryPlayerState → MemoryGameData
  | .A, s => { d with playerAState := s }
  | .B, s => { d with playerBState := s }

/-- `MemoryGameEngine.onAction` (`src/backend/src/games/MemoryGameEngine.ts`
lines 85-160).  Note that the reset of a full flipped pair
(`state.flippedCards = []`) happens before the already-matched and
already-flipped rejections, and being an in-place mutation it persists even
when the action then returns `false`. -/
def memoryOnAction (playerA : String) (playerB : Option String)
    (d : MemoryGameData) (playerId actionType : String) (payload : GamePayload) :
    Bool × MemoryGameData :=
  if actionType ≠ "GAME_ACTION" then (false, d)
  else if payload.action ≠ some "FLIP_CARD" then (false, d)
  else
    match payload.cardIndex with
    | none => (false, d)
    | some ci =>
      if ci < 0 ∨ 30 ≤ ci then (false, d)
      else
        match (if playerA = playerId then some MatchSide.A
               else if playerB = some playerId then some MatchSide.B
               else none) with
        | none => (false, d)
        | some who =>
          let idx := ci.toNat
          let st := memoryStateOf d who
          let st := if st.flippedCards.length ≥ 2 then { st with flippedCards := [] } else st
          if st.matchedPairs.contains idx then (false, memoryStateSet d who st)
          else if st.flippedCards.contains idx then (false, memoryStateSet d who st)
          else
            let st := { st with
              flippedCards := st.flippedCards ++ [idx]
              totalFlips := st.totalFlips + 1 }
            let st :=
              if st.flippedCards.length = 2 then
                match st.flippedCards with
                | [first, second] =>
                    if d.grid.get? first = d.grid.get? second then
                      { st with
                        score := st.score + 1
                        matchedPairs := st.matchedPairs ++ [first, second]
                        flippedCards := [] }
                    else st
                | _ => st
              else st
            (true, memoryStateSet d who st)

/-- The engine-owned `matchData` blob, as the tagged variant of the three
engine payload shapes. -/
inductive EngineData
| pred (d : PredictionMatchData)
| duel (d : TradeDuelData)
| memory (d : MemoryGameData)
deriving DecidableEq, Repr

/-- `MatchStatus` (`src/backend/src/types/index.ts`). -/
inductive MatchStatus
| WAITING
| PROPOSED
| ACTIVE
| COMPLETED
| SETTLING
| SETTLED
deriving DecidableEq, Repr

/-- `SettlementInfo` as filled in by `MatchService.settleMatch`. -/
structure SettlementInfo where
  status : String
  txHash : Option String
  grossAmount : Option String
  rake : Option String
  netPayout : Option String
  error : Option String
  explorerUrl : Option String
deriving DecidableEq, Repr

/-- The `Match` record (`src/backend/src/types/index.ts`); the wall-clock
`startTime` / `endTime` stamps are omitted. -/
structure MatchRec where
  id : String
  playerA : String
  playerB : Option String
  stake : ℚ
  status : MatchStatus
  duration : ℕ
  winner : Option String
  predictionA : Option Prediction
  predictionB : Option Prediction
  gameType : GameType
  asset : String
  startPrice : Option ℚ
  endPrice : Option ℚ
  matchData : Option EngineData
  settlement : Option SettlementInfo
deriving DecidableEq, Repr

/-- `[match.playerA, match.playerB].filter(Boolean)`. -/
def matchParticipants (m : MatchRec) : List String :=
  m.playerA :: (match m.playerB with | some b => [b] | none => [])

/-- A websocket broadcast: recipients and message type. -/
structure Broadcast where
  recipients : List String
  msgType : String
deriving DecidableEq, Repr

/-- Dispatch `onAction` to an engine.  The result is `none` when `matchData`
is null or holds another engine's shape: there the TS code would dereference
missing fields or mutate a foreign object, unmodelled here because the
orchestrator initializes `matchData` through the same `getEngine` lookup it
dispatches with, so the shapes always agree in a run of the service. -/
def engineOnAction (engine : EngineKind) (m : MatchRec) (lastPrice : Option PriceData)
    (playerId actionType : String) (payload : GamePayload) :
    Option (Bool × EngineData) :=
  match engine, m.matchData with
  | .assetPrediction, some (.pred d) =>
      let r := predictionOnAction m.playerA m.playerB d playerId actionType payload
      some (r.1, .pred r.2)
  | .tradeDuel, some (.duel d) =>
      let r := tradeDuelOnAction m.playerA m.playerB lastPrice d playerId actionType payload
      some (r.1, .duel r.2)
  | .memoryGame, some (.memory d) =>
      let r := memoryOnAction m.playerA m.playerB d playerId actionType payload
      some (r.1, .memory r.2)
  | _, _ => none

/-- The mirror-field sync of `handleGameAction`'s success path
(`src/unnamed/part_015` lines 301-325): predictions are copied up when the
payload has prediction fields, prices when they are present and non-null. -/
def syncFields (m : MatchRec) (md : EngineData) : MatchRec :=
  match md with
  | .pred d =>
      let m := { m with predictionA := d.predictionA, predictionB := d.predictionB }
      let m := { m with startPrice := some d.startPrice }
      (match d.endPrice with
       | some e => { m with endPrice := some e }
       | none => m)
  | .duel d =>
      let m := { m with startPrice := some d.startPrice }
      (match d.endPrice with
       | some e => { m with endPrice := some e }
       | none => m)
  | .memory _ => m

/-- `MatchService.handleGameAction` (`src/unnamed/part_015` lines 286-357) on
a single match record.  The store's record is the same object the engine
mutates, so the engine's output data is written back whatever the success
flag; on success the mirrors are re-synced and a `GAME_STATE_UPDATE` is
broadcast to both participants; on engine failure or a guard failure nothing
further happens.  `none` as overall result is the unmodelled
shape-mismatch case of `engineOnAction`. -/
def handleGameAction (store : Option MatchRec) (lastPrice : Option PriceData)
    (playerId actionType : String) (payload : GamePayload) :
    Option (Bool × Option MatchRec × List Broadcast) :=
  match store with
  | none => some (false, none, [])
  | some m =>
    if m.status ≠ .ACTIVE then some (false, some m, [])
    else
      match engineOnAction (getEngine m.gameType) m lastPrice playerId actionType payload with
      | none => none
      | some (success, md) =>
        let m1 := { m with matchData := some md }
        if success then
          let m2 := syncFields m1 md
          some (true, some m2, [⟨matchParticipants m, "GAME_STATE_UPDATE"⟩])
        else
          some (false, some m1, [])

/-- The prediction engine never touches its data on a failed action. -/
theorem predictionOnAction_false_frame (playerA : String) (playerB : Option String)
    (d d' : PredictionMatchData) (pid actionType : String) (pl : GamePayload)
    (h : predictionOnAction playerA playerB d pid actionType pl = (false, d')) :
    d' = d := by
  unfold predictionOnAction at h
  split_ifs at h <;> simp_all

/-- The trade duel engine never touches its data on a failed action. -/
theorem tradeDuelOnAction_false_frame (playerA : String) (playerB : Option String)
    (lastPrice : Option PriceData) (d d' : TradeDuelData) (pid actionType : String)
    (pl : GamePayload)
    (h : tradeDuelOnAction playerA playerB lastPrice d pid actionType pl = (false, d')) :
    d' = d := by
  unfold tradeDuelOnAction at h
  by_cases h1 : actionType ≠ "GAME_ACTION"
  · rw [if_pos h1] at h
    simp_all
  · rw [if_neg h1] at h
    split at h
    · simp_all
    · dsimp only at h
      split_ifs at h <;> simp_all

/-- No `getEngine` lookup ever produces the memory engine: the `engines`
record has no `MEMORY_GAME` entry. -/
theorem getEngine_ne_memory (g : GameType) : getEngine g ≠ .memoryGame := by
  cases g <;> decide

/-- A failed dispatched action leaves `matchData` exactly as it was, for any
engine `getEngine` can return. -/
theorem engineOnAction_false_frame (engine : EngineKind) (m : MatchRec)
    (lastPrice : Option PriceData) (pid actionType : String) (pl : GamePayload)
    (md : EngineData)
    (hne : engine ≠ .memoryGame)
    (h : engineOnAction engine m lastPrice pid actionType pl = some (false, md)) :
    m.matchData = some md := by
  cases engine
  · rcases hmd : m.matchData with _ | ed
    · unfold engineOnAction at h
      rw [hmd] at h
      exact Option.noConfusion h
    · cases ed
      case pred d =>
        unfold engineOnAction at h
        rw [hmd] at h
        simp only [Option.some.injEq, Prod.mk.injEq] at h
        have hpair : predictionOnAction m.playerA m.playerB d pid actionType pl =
            (false, (predictionOnAction m.playerA m.playerB d pid actionType pl).2) := by
          rw [← h.1]
        have hd2 := predictionOnAction_false_frame m.playerA m.playerB d _ pid actionType pl hpair
        rw [← h.2, hd2]
      case duel d =>
        unfold engineOnAction at h
        rw [hmd] at h
        exact Option.noConfusion h
      case memory d =>
        unfold engineOnAction at h
        rw [hmd] at h
        exact Option.noConfusion h
  · rcases hmd : m.matchData with _ | ed
    · unfold engineOnAction at h
      rw [hmd] at h
      exact Option.noConfusion h
    · cases ed
      case pred d =>
        unfold engineOnAction at h
        rw [hmd] at h
        exact Option.noConfusion h
      case duel d =>
        unfold engineOnAction at h
        rw [hmd] at h
        simp only [Option.some.injEq, Prod.mk.injEq] at h
        have hpair : tradeDuelOnAction m.playerA m.playerB lastPrice d pid actionType pl =
            (false, (tradeDuelOnAction m.playerA m.playerB lastPrice d pid actionType pl).2) := by
          rw [← h.1]
        have hd2 := tradeDuelOnAction_false_frame m.playerA m.playerB lastPrice d _ pid
          actionType pl hpair
        rw [← h.2, hd2]
      case memory d =>
        unfold engineOnAction at h
        rw [hmd] at h
        exact Option.noConfusion h
  · exact absurd rfl hne

/-- C6: whenever `handleGameAction` returns failure, the match record in the
store — `matchData` included — is exactly what it was before the call, and
no state update is broadcast to either player. -/
theorem handleGameAction_failure_frame (store : Option MatchRec) (lastPrice : Option PriceData)
    (playerId actionType : String) (payload : GamePayload)
    (store' : Option MatchRec) (bs : List Broadcast)
    (h : handleGameAction store lastPrice playerId actionType payload =
      some (false, store', bs)) :
    store' = store ∧ bs = [] := by
  rcases store with _ | m
  · unfold handleGameAction at h
    simp only [Option.some.injEq, Prod.mk.injEq] at h
    exact ⟨h.2.1.symm, h.2.2.symm⟩
  · unfold handleGameAction at h
    dsimp only at h
    by_cases hs : m.status ≠ MatchStatus.ACTIVE
    · rw [if_pos hs] at h
      simp only [Option.some.injEq, Prod.mk.injEq] at h
      exact ⟨h.2.1.symm, h.2.2.symm⟩
    · rw [if_neg hs] at h
      rcases heng : engineOnAction (getEngine m.gameType) m lastPrice playerId actionType payload
        with _ | ⟨success, md⟩
      · rw [heng] at h
        exact Option.noConfusion h
      · rw [heng] at h
        rcases success
        · simp only [Bool.false_eq_true, if_false, Option.some.injEq, Prod.mk.injEq] at h
          have hmd : m.matchData = some md :=
            engineOnAction_false_frame (getEngine m.gameType) m lastPrice playerId actionType
              payload md (getEngine_ne_memory m.gameType) heng
          refine ⟨?_, h.2.2.symm⟩
          rw [← h.2.1]
          have : ({ m with matchData := some md } : MatchRec) = m := by
            rw [← hmd]
          rw [this]
        · simp only [if_true, Option.some.injEq, Prod.mk.injEq] at h
          exact absurd h.1 (by decide)

/-- Concrete ACTIVE prediction match for the C6 witness. -/
def demoActiveMatch : MatchRec :=
  { id := "m1", playerA := "pa", playerB := some "pb", stake := 10,
    status := .ACTIVE, duration := 60, winner := none,
    predictionA := none, predictionB := none, gameType := .PREDICTION,
    asset := "ETH/USD", startPrice := some 2500, endPrice := none,
    matchData := some (.pred ⟨2500, none, none, none⟩), settlement := none }

/-- Witness for C6: an unknown action type against an ACTIVE match fails and
leaves the record and the broadcast list untouched. -/
theorem handleGameAction_failure_frame_witness :
    handleGameAction (some demoActiveMatch) none "pa" "BOGUS" ⟨none, none, none⟩ =
      some (false, some demoActiveMatch, []) ∧
    ((some demoActiveMatch : Option MatchRec) = some demoActiveMatch ∧
      ([] : List Broadcast) = []) := by
  have hcall : handleGameAction (some demoActiveMatch) none "pa" "BOGUS" ⟨none, none, none⟩ =
      some (false, some demoActiveMatch, []) := by decide
  exact ⟨hcall, handleGameAction_failure_frame (some demoActiveMatch) none "pa" "BOGUS"
    ⟨none, none, none⟩ (some demoActiveMatch) [] hcall⟩

/-! ## Match lifecycle state machine (`MatchService`, `src/unnamed/part_015`) -/

/-- Which participant (or an unrelated caller) an `acceptMatch` call names;
the code adds any `playerId` to the transient set. -/
inductive AcceptWho
| A
| B
| other
deriving DecidableEq, Repr

/-- The slice of the match record the lifecycle depends on: the stored status
and whether `proposeMatch` has set a player B. -/
structure LifeMatch where
  status : MatchStatus
  hasPlayerB : Bool
deriving DecidableEq, Repr

/-- Lifecycle state of one match: its store entry (`none` = deleted), the
service's transient `acceptedPlayers` entry for it, and the trace of status
values written to the store. -/
structure LifeState where
  store : Option LifeMatch
  acceptedA : Bool
  acceptedB : Bool
  history : List MatchStatus
deriving DecidableEq, Repr

/-- `createMatch` (lines 56-89): a fresh record in `WAITING`, no player B. -/
def createMatchInit : LifeState :=
  ⟨some ⟨.WAITING, false⟩, false, false, [.WAITING]⟩

/-- The externally triggered operations on an existing match: `proposeMatch`
(matchmaking pairing), `acceptMatch` (an ACCEPT_MATCH message),
`handleGameAction` (game messages; never writes the status), `completeMatch`
(the duration timer), `settleMatch` (the 3-second grace timer after
completion), `cancelMatch` (the proposal timeout or a disconnect).
`startMatch` is private and runs only from `acceptMatch` once both parties
have accepted, so it appears embedded in the accept step. -/
inductive LifeEvent
| propose
| accept (who : AcceptWho)
| gameAction
| complete
| settle
| cancel
deriving DecidableEq, Repr

/-- `proposeMatch` (lines 95-135): `WAITING` only; sets player B and writes
`PROPOSED`. -/
def lifePropose (st : LifeState) : LifeState :=
  match st.store with
  | none => st
  | some m =>
    if m.status = .WAITING then
      { st with store := some ⟨.PROPOSED, true⟩, history := st.history ++ [.PROPOSED] }
    else st

/-- `startMatch` (lines 207-264) as invoked from `acceptMatch`: the record,
if still present, is written `ACTIVE` together with the engine's `onStart`
output. -/
def lifeStart (st : LifeState) : LifeState :=
  match st.store with
  | none => st
  | some m =>
    { st with
      store := some { m with status := .ACTIVE }
      history := st.history ++ [.ACTIVE] }

/-- `acceptMatch` (lines 153-191): `PROPOSED` only; adds the caller to the
transient set; once `playerA`, and a present `playerB`, are both in the set,
clears the set, cancels the proposal timer and starts the match. -/
def lifeAccept (st : LifeState) (who : AcceptWho) : LifeState :=
  match st.store with
  | none => st
  | some m =>
    if m.status = .PROPOSED then
      let aA := if who = AcceptWho.A then true else st.acceptedA
      let aB := if who = AcceptWho.B then true else st.acceptedB
      if aA && m.hasPlayerB && aB then
        lifeStart { st with acceptedA := false, acceptedB := false }
      else
        { st with acceptedA := aA, acceptedB := aB }
    else st

/-- `completeMatch` (lines 377-402): `ACTIVE` only; writes `COMPLETED`. -/
def lifeComplete (st : LifeState) : LifeState :=
  match st.store with
  | none => st
  | some m =>
    if m.status = .ACTIVE then
      { st with
        store := some { m with status := .COMPLETED }
        history := st.history ++ [.COMPLETED] }
    else st

/-- `settleMatch` (lines 407-506): `COMPLETED` only; writes `SETTLING`,
performs the treasury calls, then writes `SETTLED`. -/
def lifeSettle (st : LifeState) : LifeState :=
  match st.store with
  | none => st
  | some m =>
    if m.status = .COMPLETED then
      { st with
        store := some { m with status := .SETTLED }
        history := st.history ++ [.SETTLING, .SETTLED] }
    else st

/-- `cancelMatch` (lines 511-531): deletes the record, whatever its status,
and discards the transient accept set; its callers fire it only from
`PROPOSED` (proposal timeout) and `WAITING` (disconnect). -/
def lifeCancel (st : LifeState) : LifeState :=
  match st.store with
  | none => st
  | some _ => { st with store := none, acceptedA := false, acceptedB := false }

/-- One lifecycle step.  `handleGameAction` mutates only `matchData` and the
mirror fields, never the status or the store key, so its lifecycle effect is
the identity. -/
def lifeStep (st : LifeState) : LifeEvent → LifeState
  | .propose => lifePropose st
  | .accept who => lifeAccept st who
  | .gameAction => st
  | .complete => lifeComplete st
  | .settle => lifeSettle st
  | .cancel => lifeCancel st

/-- The status graph of §4.1 as an ordered list. -/
def fullStatusChain : List MatchStatus :=
  [.WAITING, .PROPOSED, .ACTIVE, .COMPLETED, .SETTLING, .SETTLED]

/-- Position of a status along the chain. -/
def statusRank : MatchStatus → ℕ
  | .WAITING => 0
  | .PROPOSED => 1
  | .ACTIVE => 2
  | .COMPLETED => 3
  | .SETTLING => 4
  | .SETTLED => 5

/-- The chain up to and including a status. -/
def chainTo (s : MatchStatus) : List MatchStatus :=
  fullStatusChain.take (statusRank s + 1)

/-- Lifecycle invariant: while the record lives, the status trace is exactly
the chain up to the current status; once deleted, the trace is some initial
segment of the chain. -/
def lifeInv (st : LifeState) : Prop :=
  (∀ m, st.store = some m → st.history = chainTo m.status) ∧
  (st.store = none → ∃ n, st.history = fullStatusChain.take n)

/-- Every lifecycle operation preserves the invariant. -/
theorem lifeStep_inv (st : LifeState) (e : LifeEvent) (h : lifeInv st) :
    lifeInv (lifeStep st e) := by
  obtain ⟨hsome, hnone⟩ := h
  cases e
  case propose =>
    rcases hst : st.store with _ | m
    · have hstep : lifeStep st .propose = st := by
        unfold lifeStep lifePropose
        rw [hst]
      rw [hstep]
      exact ⟨hsome, hnone⟩
    · by_cases hw : m.status = .WAITING
      · have hstep : lifeStep st .propose =
            { st with store := some ⟨.PROPOSED, true⟩, history := st.history ++ [.PROPOSED] } := by
          unfold lifeStep lifePropose
          rw [hst]
          dsimp only
          rw [if_pos hw]
        rw [hstep]
        refine ⟨?_, fun hn => Option.noConfusion hn⟩
        intro m' hm'
        injection hm' with hh
        rw [← hh]
        show st.history ++ [.PROPOSED] = chainTo .PROPOSED
        rw [hsome m hst, hw]
        decide
      · have hstep : lifeStep st .propose = st := by
          unfold lifeStep lifePropose
          rw [hst]
          dsimp only
          rw [if_neg hw]
        rw [hstep]
        exact ⟨hsome, hnone⟩
  case accept who =>
    rcases hst : st.store with _ | m
    · have hstep : lifeStep st (.accept who) = st := by
        unfold lifeStep lifeAccept
        rw [hst]
      rw [hstep]
      exact ⟨hsome, hnone⟩
    · by_cases hp : m.status = .PROPOSED
      · by_cases hboth : ((if who = AcceptWho.A then true else st.acceptedA) && m.hasPlayerB &&
            (if who = AcceptWho.B then true else st.acceptedB)) = true
        · have hstep : lifeStep st (.accept who) =
              { st with
                store := some { m with status := .ACTIVE }
                acceptedA := false
                acceptedB := false
                history := st.history ++ [.ACTIVE] } := by
            unfold lifeStep lifeAccept
            rw [hst]
            dsimp only
            rw [if_pos hp, if_pos hboth]
            unfold lifeStart
            dsimp only
          rw [hstep]
          refine ⟨?_, fun hn => Option.noConfusion hn⟩
          intro m' hm'
          injection hm' with hh
          rw [← hh]
          show st.history ++ [.ACTIVE] = chainTo MatchStatus.ACTIVE
          rw [hsome m hst, hp]
          decide
        · have hstep : lifeStep st (.accept who) =
              { st with
                acceptedA := if who = AcceptWho.A then true else st.acceptedA
                acceptedB := if who = AcceptWho.B then true else st.acceptedB } := by
            unfold lifeStep lifeAccept
            rw [hst]
            dsimp only
            rw [if_pos hp, if_neg hboth]
          rw [hstep]
          exact ⟨fun m' hm' => hsome m' hm', fun hn => hnone hn⟩
      · have hstep : lifeStep st (.accept who) = st := by
          unfold lifeStep lifeAccept
          rw [hst]
          dsimp only
          rw [if_neg hp]
        rw [hstep]
        exact ⟨hsome, hnone⟩
  case gameAction =>
    exact ⟨hsome, hnone⟩
  case complete =>
    rcases hst : st.store with _ | m
    · have hstep : lifeStep st .complete = st := by
        unfold lifeStep lifeComplete
        rw [hst]
      rw [hstep]
      exact ⟨hsome, hnone⟩
    · by_cases ha : m.status = .ACTIVE
      · have hstep : lifeStep st .complete =
            { st with
              store := some { m with status := .COMPLETED }
              history := st.history ++ [.COMPLETED] } := by
          unfold lifeStep lifeComplete
          rw [hst]
          dsimp only
          rw [if_pos ha]
        rw [hstep]
        refine ⟨?_, fun hn => Option.noConfusion hn⟩
        intro m' hm'
        injection hm' with hh
        rw [← hh]
        show st.history ++ [.COMPLETED] = chainTo MatchStatus.COMPLETED
        rw [hsome m hst, ha]
        decide
      · have hstep : lifeStep st .complete = st := by
          unfold lifeStep lifeComplete
          rw [hst]
          dsimp only
          rw [if_neg ha]
        rw [hstep]
        exact ⟨hsome, hnone⟩
  case settle =>
    rcases hst : st.store with _ | m
    · have hstep : lifeStep st .settle = st := by
        unfold lifeStep lifeSettle
        rw [hst]
      rw [hstep]
      exact ⟨hsome, hnone⟩
    · by_cases hc : m.status = .COMPLETED
      · have hstep : lifeStep st .settle =
            { st with
              store := some { m with status := .SETTLED }
              history := st.history ++ [.SETTLING, .SETTLED] } := by
          unfold lifeStep lifeSettle
          rw [hst]
          dsimp only
          rw [if_pos hc]
        rw [hstep]
        refine ⟨?_, fun hn => Option.noConfusion hn⟩
        intro m' hm'
        injection hm' with hh
        rw [← hh]
        show st.history ++ [.SETTLING, .SETTLED] = chainTo MatchStatus.SETTLED
        rw [hsome m hst, hc]
        decide
      · have hstep : lifeStep st .settle = st := by
          unfold lifeStep lifeSettle
          rw [hst]
          dsimp only
          rw [if_neg hc]
        rw [hstep]
        exact ⟨hsome, hnone⟩
  case cancel =>
    rcases hst : st.store with _ | m
    · have hstep : lifeStep st .cancel = st := by
        unfold lifeStep lifeCancel
        rw [hst]
      rw [hstep]
      exact ⟨hsome, hnone⟩
    · have hstep : lifeStep st .cancel =
          { st with store := none, acceptedA := false, acceptedB := false } := by
        unfold lifeStep lifeCancel
        rw [hst]
      rw [hstep]
      refine ⟨fun m' hm' => Option.noConfusion hm', fun _ => ?_⟩
      exact ⟨statusRank m.status + 1, hsome m hst⟩

/-- C1: starting from `createMatch`, after any sequence of lifecycle events
the sequence of status values the match has taken on is an initial segment of
WAITING, PROPOSED, ACTIVE, COMPLETED, SETTLING, SETTLED — no operation moves
a match backwards or skips forward along the graph, and cancellation only
deletes the record without writing a status. -/
theorem matchLifecycle_status_monotone (evs : List LifeEvent) :
    ∃ n, (evs.foldl lifeStep createMatchInit).history = fullStatusChain.take n := by
  have hrun : ∀ (l : List LifeEvent) (st : LifeState), lifeInv st →
      lifeInv (l.foldl lifeStep st) := by
    intro l
    induction l with
    | nil => exact fun st h => h
    | cons e t ih => exact fun st h => ih _ (lifeStep_inv st e h)
  have hinit : lifeInv createMatchInit := by
    refine ⟨?_, fun hn => Option.noConfusion hn⟩
    intro m hm
    injection hm with hh
    rw [← hh]
    decide
  have hfin := hrun evs createMatchInit hinit
  rcases hfs : (evs.foldl lifeStep createMatchInit).store with _ | m
  · exact hfin.2 hfs
  · exact ⟨statusRank m.status + 1, hfin.1 m hfs⟩

/-! ## Settlement (`MatchService.settleMatch`, `src/unnamed/part_015` lines 407-506) -/

/-- The slice of `TreasuryService`'s `SettlementResult` the match service
reads. -/
structure SettlementResult where
  status : String
  txHash : Option String
  grossAmount : Option String
  rake : Option String
  netPayout : Option String
  error : Option String
  explorerUrl : Option String
deriving DecidableEq, Repr

/-- A call made to the treasury service: `TreasuryService.settleMatch` for a
winner payout, `TreasuryService.refundStake` for a per-player draw refund. -/
inductive TreasuryCall
| settle (winner : String) (amount : ℚ) (matchId : String)
| refund (player : String) (amount : ℚ) (refundId : String)
deriving DecidableEq, Repr

/-- JS `x || fallback` on an optional string: `undefined` and `""` are falsy. -/
def orElseStr (x : Option String) (fallback : String) : String :=
  match x with
  | some s => if s = "" then fallback else s
  | none => fallback

/-- JS `x || y` where both sides are optional strings. -/
def orElseOptStr (x y : Option String) : Option String :=
  match x with
  | some s => if s = "" then y else some s
  | none => y

/-- `settleMatch`: only from `COMPLETED`; writes `SETTLING`, performs the
treasury calls — one rake-bearing `settleMatch` for a winner, one
`refundStake` per present player for a draw — and writes `SETTLED` with the
built `SettlementInfo`.  Returns the updated store entry, the list of
treasury calls in order, and the broadcasts (the player-association release
through the connection registry is modelled separately with the disconnect
handler).  `winRes` is the treasury result of a winner settlement,
`refundResA`/`refundResB` those of the two draw refunds; only the branch
taken reads its result. -/
def settleMatch (store : Option MatchRec)
    (winRes refundResA refundResB : SettlementResult) :
    Option MatchRec × List TreasuryCall × List Broadcast :=
  match store with
  | none => (none, [], [])
  | some m =>
    if m.status ≠ .COMPLETED then (some m, [], [])
    else
      let players := matchParticipants m
      let started : Broadcast := ⟨players, "SETTLEMENT_STARTED"⟩
      match m.winner with
      | some w =>
          let prizePool := m.stake * 2
          let settlement : SettlementInfo :=
            ⟨winRes.status, winRes.txHash, winRes.grossAmount, winRes.rake,
             winRes.netPayout, winRes.error, winRes.explorerUrl⟩
          let updated := { m with status := .SETTLED, settlement := some settlement }
          let msgType :=
            if settlement.status = "confirmed" then "SETTLEMENT_COMPLETE" else "SETTLEMENT_FAILED"
          (some updated, [.settle w prizePool m.id], [started, ⟨players, msgType⟩])
      | none =>
          let statusB := match m.playerB with | some _ => refundResB.status | none => "confirmed"
          let errorB : Option String :=
            match m.playerB with | some _ => refundResB.error | none => none
          let callsB : List TreasuryCall :=
            match m.playerB with
            | some b => [.refund b m.stake (m.id ++ "-B-refund")]
            | none => []
          let settlement : SettlementInfo :=
            ⟨(if refundResA.status = "confirmed" ∧ statusB = "confirmed"
              then "confirmed" else "failed"),
             refundResA.txHash,
             some (toString m.stake),
             some (orElseStr refundResA.rake "0"),
             some (orElseStr refundResA.netPayout (toString m.stake)),
             orElseOptStr refundResA.error errorB,
             refundResA.explorerUrl⟩
          let updated := { m with status := .SETTLED, settlement := some settlement }
          let msgType :=
            if settlement.status = "confirmed" then "SETTLEMENT_COMPLETE" else "SETTLEMENT_FAILED"
          (some updated, .refund m.playerA m.stake (m.id ++ "-A-refund") :: callsB,
           [started, ⟨players, msgType⟩])

/-- C2: settling a completed two-player draw calls the treasury refund
primitive exactly once per player, each with that player's original stake
and a per-player refund id, in order player A then player B; and the
recorded settlement status is `"confirmed"` exactly when both per-player
refund results are `"confirmed"`. -/
theorem settleMatch_draw_refunds (m : MatchRec) (b : String)
    (winRes rA rB : SettlementResult)
    (hstatus : m.status = .COMPLETED) (hdraw : m.winner = none)
    (hB : m.playerB = some b) :
    (settleMatch (some m) winRes rA rB).2.1 =
      [.refund m.playerA m.stake (m.id ++ "-A-refund"),
       .refund b m.stake (m.id ++ "-B-refund")] ∧
    ∃ info : SettlementInfo,
      (settleMatch (some m) winRes rA rB).1 =
        some { m with status := .SETTLED, settlement := some info } ∧
      (info.status = "confirmed" ↔ (rA.status = "confirmed" ∧ rB.status = "confirmed")) := by
  have hguard : ¬(m.status ≠ MatchStatus.COMPLETED) := by
    rw [hstatus]
    exact fun hcon => hcon rfl
  have hrun : settleMatch (some m) winRes rA rB =
      (some { m with
          status := .SETTLED
          settlement := some (SettlementInfo.mk
            (if rA.status = "confirmed" ∧ rB.status = "confirmed"
             then "confirmed" else "failed")
            rA.txHash (some (toString m.stake)) (some (orElseStr rA.rake "0"))
            (some (orElseStr rA.netPayout (toString m.stake)))
            (orElseOptStr rA.error rB.error) rA.explorerUrl) },
       [.refund m.playerA m.stake (m.id ++ "-A-refund"),
        .refund b m.stake (m.id ++ "-B-refund")],
       [Broadcast.mk (matchParticipants m) "SETTLEMENT_STARTED",
        Broadcast.mk (matchParticipants m)
          (if (if rA.status = "confirmed" ∧ rB.status = "confirmed"
               then "confirmed" else "failed") = "confirmed"
           then "SETTLEMENT_COMPLETE" else "SETTLEMENT_FAILED")]) := by
    unfold settleMatch
    dsimp only
    rw [if_neg hguard, hdraw, hB]
  rw [hrun]
  refine ⟨rfl, ⟨_, rfl, ?_⟩⟩
  by_cases hc : rA.status = "confirmed" ∧ rB.status = "confirmed"
  · rw [if_pos hc]
    exact ⟨fun _ => hc, fun _ => rfl⟩
  · rw [if_neg hc]
    have hne : ("failed" : String) ≠ "confirmed" := by decide
    constructor
    · intro hfc
      exact absurd hfc hne
    · intro hcc
      exact absurd hcc hc

/-- Concrete completed draw match for the C2 witness. -/
def demoDrawMatch : MatchRec :=
  { id := "m2", playerA := "pa", playerB := some "pb", stake := 10,
    status := .COMPLETED, duration := 60, winner := none,
    predictionA := none, predictionB := none, gameType := .PREDICTION,
    asset := "ETH/USD", startPrice := some 2500, endPrice := some 2500,
    matchData := some (.pred ⟨2500, some 2500, none, none⟩), settlement := none }

/-- A confirmed treasury result for the C2 witness. -/
def demoRefundOk : SettlementResult :=
  ⟨"confirmed", some "0xabc", some "10", some "0", some "10", none, none⟩

/-- Witness for C2: settling the concrete completed draw emits exactly the
two per-player refund calls. -/
theorem settleMatch_draw_refunds_witness :
    (settleMatch (some demoDrawMatch) demoRefundOk demoRefundOk demoRefundOk).2.1 =
      [.refund "pa" 10 ("m2" ++ "-A-refund"), .refund "pb" 10 ("m2" ++ "-B-refund")] :=
  (settleMatch_draw_refunds demoDrawMatch "pb" demoRefundOk demoRefundOk demoRefundOk
    rfl rfl rfl).1

/-! ## Disconnect handling (`handleDisconnect`,
`src/backend/src/handlers/websocket.ts` lines 38-56, and
`MatchService.cancelMatch`, `src/unnamed/part_015` lines 511-531) -/

/-- The slice of a `ConnectedPlayer` record the disconnect path reads. -/
structure PlayerRec where
  currentMatchId : Option String
deriving DecidableEq, Repr

/-- State seen by the websocket layer: the connection registry (player id to
record, `none` = not connected), the matchmaking queue's player ids, the
store entry of the single match under consideration, and the log of messages
delivered to connected players. -/
structure WsState where
  players : String → Option PlayerRec
  queue : List String
  store : Option MatchRec
  sent : List (String × String)

/-- `PlayerStore.send`: delivered only to a connected player. -/
def sendTo (st : WsState) (p : String) (msgType : String) : WsState :=
  match st.players p with
  | some _ => { st with sent := st.sent ++ [(p, msgType)] }
  | none => st

/-- `PlayerStore.setMatch`: update the match association of a connected
player; no-op otherwise. -/
def setMatchAssoc (st : WsState) (p : String) (mid : Option String) : WsState :=
  { st with players := fun q =>
      if q = p then (st.players p).map (fun _ => ⟨mid⟩) else st.players q }

/-- `MatchService.cancelMatch` (timer bookkeeping aside): delete the record,
broadcast an ERROR to both parties, release both players' match
associations. -/
def cancelMatchWs (st : WsState) : WsState :=
  match st.store with
  | none => st
  | some m =>
    let players := matchParticipants m
    let st1 := { st with store := none }
    let st2 := players.foldl (fun s p => sendTo s p "ERROR") st1
    players.foldl (fun s p => setMatchAssoc s p none) st2

/-- `handleDisconnect`: leave the queue; if the player's current match exists
and is `WAITING`, cancel it (`match.status === "WAITING"` is the only status
checked); finally remove the player from the registry. -/
def handleDisconnectWs (st : WsState) (playerId : String) : WsState :=
  let st1 := { st with queue := st.queue.erase playerId }
  let st2 :=
    match st1.players playerId with
    | some pr =>
      (match pr.currentMatchId with
       | some mid =>
         (match st1.store with
          | some m => if m.id = mid ∧ m.status = MatchStatus.WAITING then cancelMatchWs st1 else st1
          | none => st1)
       | none => st1)
    | none => st1
  { st2 with players := fun q => if q = playerId then none else st2.players q }

/-- Folding `sendTo` over a list appends one message per connected recipient
and changes nothing else. -/
theorem sendTo_foldl (ps : List String) (s : WsState) :
    ps.foldl (fun a p => sendTo a p "ERROR") s =
      { s with sent := s.sent ++
          (ps.filter (fun p => (s.players p).isSome)).map (fun p => (p, "ERROR")) } := by
  induction ps generalizing s with
  | nil => simp
  | cons p t ih =>
    rcases hp : s.players p with _ | pr
    · have hsend : sendTo s p "ERROR" = s := by
        unfold sendTo
        rw [hp]
      rw [List.foldl_cons, hsend, ih]
      simp [List.filter_cons, hp]
    · have hsend : sendTo s p "ERROR" = { s with sent := s.sent ++ [(p, "ERROR")] } := by
        unfold sendTo
        rw [hp]
      rw [List.foldl_cons, hsend, ih]
      simp [List.filter_cons, hp]

/-- Folding `setMatchAssoc` over a list clears the association of each listed
connected player and changes nothing else. -/
theorem setMatchAssoc_foldl (ps : List String) (s : WsState) :
    ps.foldl (fun a p => setMatchAssoc a p none) s =
      { s with players := fun q =>
          if q ∈ ps then (s.players q).map (fun _ => PlayerRec.mk none)
          else s.players q } := by
  induction ps generalizing s with
  | nil =>
    have hpl : (fun q => if q ∈ ([] : List String)
        then (s.players q).map (fun _ => PlayerRec.mk none) else s.players q) = s.players := by
      funext q
      simp
    rw [List.foldl_nil, hpl]
  | cons p t ih =>
    rw [List.foldl_cons, ih]
    dsimp only [setMatchAssoc]
    congr 1
    funext q
    by_cases hq : q = p
    · subst hq
      by_cases hqt : q ∈ t <;>
        · simp only [hqt, List.mem_cons, Option.map_map, Function.comp, if_pos rfl,
            true_or, if_true, ite_true, ite_self]
          cases s.players q <;> rfl
    · by_cases hqt : q ∈ t <;>
        simp [hq, hqt, List.mem_cons]

/-- C7 counterexample state: player p1's current match is `PROPOSED`. -/
def demoProposedMatch : MatchRec :=
  { id := "m3", playerA := "p1", playerB := some "p2", stake := 10,
    status := .PROPOSED, duration := 60, winner := none,
    predictionA := none, predictionB := none, gameType := .PREDICTION,
    asset := "ETH/USD", startPrice := none, endPrice := none,
    matchData := none, settlement := none }

/-- C7 counterexample registry/queue/store snapshot. -/
def demoProposedWsState : WsState :=
  { players := fun q =>
      if q = "p1" then some ⟨some "m3"⟩
      else if q = "p2" then some ⟨some "m3"⟩
      else none,
    queue := [], store := some demoProposedMatch, sent := [] }

/-- C7 counterexample: a disconnect of p1 while the match is `PROPOSED` does
not cancel it — the record survives untouched and nobody is notified,
contradicting the claim that a disconnect in `WAITING` or `PROPOSED` cancels
the match. -/
theorem disconnect_proposed_not_cancelled :
    (handleDisconnectWs demoProposedWsState "p1").store = some demoProposedMatch ∧
    (handleDisconnectWs demoProposedWsState "p1").sent = [] := by
  constructor <;> decide

/-- C7 (amended): a disconnect cancels the player's current match only when
it is `WAITING` — then the record is deleted, each still-connected party is
sent an ERROR, both players' match associations are released and the
disconnecting player is removed; while `PROPOSED` or `ACTIVE` the record,
and the message log, are left untouched (a `PROPOSED` match falls to the
proposal timeout, an `ACTIVE` one completes on its timer). -/
theorem disconnect_cancels_only_waiting (st : WsState) (pid : String)
    (pr : PlayerRec) (m : MatchRec)
    (hp : st.players pid = some pr) (hmid : pr.currentMatchId = some m.id)
    (hm : st.store = some m) :
    (m.status = .WAITING →
      (handleDisconnectWs st pid).store = none ∧
      (handleDisconnectWs st pid).sent = st.sent ++
        ((matchParticipants m).filter (fun p => (st.players p).isSome)).map
          (fun p => (p, "ERROR")) ∧
      (handleDisconnectWs st pid).players pid = none ∧
      (∀ q, q ≠ pid → q ∈ matchParticipants m →
        (handleDisconnectWs st pid).players q = (st.players q).map (fun _ => PlayerRec.mk none)) ∧
      (∀ q, q ≠ pid → q ∉ matchParticipants m →
        (handleDisconnectWs st pid).players q = st.players q)) ∧
    ((m.status = .PROPOSED ∨ m.status = .ACTIVE) →
      (handleDisconnectWs st pid).store = st.store ∧
      (handleDisconnectWs st pid).sent = st.sent) := by
  constructor
  · intro hw
    have hcond : m.id = m.id ∧ m.status = MatchStatus.WAITING := ⟨rfl, hw⟩
    have hrun : handleDisconnectWs st pid =
        { cancelMatchWs { st with queue := st.queue.erase pid } with
          players := fun q =>
            if q = pid then none
            else (cancelMatchWs { st with queue := st.queue.erase pid }).players q } := by
      unfold handleDisconnectWs
      dsimp only
      rw [hp]
      dsimp only
      rw [hmid]
      dsimp only
      rw [hm]
      dsimp only
      rw [if_pos hcond]
    have hcancel : cancelMatchWs { st with queue := st.queue.erase pid } =
        { st with
          queue := st.queue.erase pid
          store := none
          sent := st.sent ++
            ((matchParticipants m).filter (fun p => (st.players p).isSome)).map
              (fun p => (p, "ERROR"))
          players := fun q =>
            if q ∈ matchParticipants m then (st.players q).map (fun _ => PlayerRec.mk none)
            else st.players q } := by
      unfold cancelMatchWs
      rw [hm]
      dsimp only
      rw [sendTo_foldl, setMatchAssoc_foldl]
    rw [hrun, hcancel]
    refine ⟨rfl, rfl, by simp, ?_, ?_⟩
    · intro q hqpid hqmem
      show (if q = pid then none else _) = _
      rw [if_neg hqpid]
      show (if q ∈ matchParticipants m then (st.players q).map (fun _ => PlayerRec.mk none)
            else st.players q) = _
      rw [if_pos hqmem]
    · intro q hqpid hqmem
      show (if q = pid then none else _) = _
      rw [if_neg hqpid]
      show (if q ∈ matchParticipants m then (st.players q).map (fun _ => PlayerRec.mk none)
            else st.players q) = _
      rw [if_neg hqmem]
  · intro hpa
    have hcond : ¬(m.id = m.id ∧ m.status = MatchStatus.WAITING) := by
      rcases hpa with h | h <;>
        exact fun hcon => by rw [h] at hcon; exact absurd hcon.2 (by decide)
    have hrun : handleDisconnectWs st pid =
        { st with
          queue := st.queue.erase pid
          players := fun q =>
            if q = pid then none
            else ({ st with queue := st.queue.erase pid } : WsState).players q } := by
      unfold handleDisconnectWs
      dsimp only
      rw [hp]
      dsimp only
      rw [hmid]
      dsimp only
      rw [hm]
      dsimp only
      rw [if_neg hcond]
    rw [hrun]
    exact ⟨rfl, rfl⟩

/-- C7 witness state: the match is `WAITING` (no player B yet). -/
def demoWaitingMatch : MatchRec :=
  { id := "m4", playerA := "p1", playerB := none, stake := 10,
    status := .WAITING, duration := 60, winner := none,
    predictionA := none, predictionB := none, gameType := .PREDICTION,
    asset := "ETH/USD", startPrice := none, endPrice := none,
    matchData := none, settlement := none }

/-- C7 witness registry snapshot. -/
def demoWaitingWsState : WsState :=
  { players := fun q => if q = "p1" then some ⟨some "m4"⟩ else none,
    queue := ["p1"], store := some demoWaitingMatch, sent := [] }

/-- Witness for the amended C7: disconnecting p1 from its WAITING match
deletes the record and removes the player. -/
theorem disconnect_cancels_only_waiting_witness :
    (handleDisconnectWs demoWaitingWsState "p1").store = none ∧
    (handleDisconnectWs demoWaitingWsState "p1").players "p1" = none := by
  have h := (disconnect_cancels_only_waiting demoWaitingWsState "p1" ⟨some "m4"⟩
    demoWaitingMatch rfl rfl rfl).1 rfl
  exact ⟨h.1, h.2.2.1⟩

/-- Cache holding nothing, for the C10 witness. -/
def demoEmptyCache : PriceCache := fun _ => none

/-- Witness for C10: a failed fetch on an empty cache returns a mock reading,
stores nothing, and `getLastPrice` still returns nothing. -/
theorem getPrice_failedFetch_frame_witness :
    (getPrice demoEmptyCache 100 none 7 "BTC/USD").cache = demoEmptyCache ∧
    (getPrice demoEmptyCache 100 none 7 "BTC/USD").data.source = "mock" ∧
    getLastPrice (getPrice demoEmptyCache 100 none 7 "BTC/USD").cache "BTC/USD" = none := by
  have h := getPrice_failedFetch_frame demoEmptyCache 100 none 7 "BTC/USD" "bitcoin"
    (by decide) (Or.inl rfl)
  exact ⟨h.1, (h.2.2.2 rfl).1, (h.2.2.2 rfl).2⟩

end Edge60
